import Mathlib

/-!
Verification of the ESP32 battery-monitor data logger (`src/main.py`).

The script samples an ADC, converts the raw sample to a calibrated voltage
(`read_voltage`), and each cycle either sends the reading live (`send_data`)
or appends it to a JSON buffer file (`save_to_buffer`); at startup, if
Wi-Fi connected, it replays the buffer (`flush_buffer`), keeping exactly the
entries that were not successfully delivered.

Embedding choices:
* a buffered record (`{"voltage": v, "timestamp": t}`) is `Entry`,
  with rational fields (Python floats modelled as exact decimals);
* the buffer file on flash is `BufferFile`: `absent` (no `buffer.json` in
  `os.listdir()`), `wellFormed l` (a JSON array parsing to the list `l`),
  or `corrupt` (content on which `json.load` raises);
* the network is an oracle: an HTTP post of a payload either succeeds or
  fails, and the outcome may vary from call to call, so deliver outcomes
  are a function of the call index and the payload;
* fallible operations (`json.load` raising on corrupt content) return
  `Except StorageError`.
-/

/-- One buffered reading: the dict `{"voltage": ..., "timestamp": ...}`
written by the main loop. Equality is structural, as Python `in` / `not in`
compare dicts by value. -/
structure Entry where
  voltage : ℚ
  timestamp : ℚ
deriving DecidableEq, Repr

/-- The delivery payload built by `send_data`: the dict with keys
`voltage`, `device_id`, `channel` (and no timestamp key). -/
structure Payload where
  voltage : ℚ
  device_id : String
  channel : ℤ
deriving DecidableEq, Repr

/-- State of `buffer.json` on flash. -/
inductive BufferFile where
  | absent : BufferFile
  | wellFormed : List Entry → BufferFile
  | corrupt : BufferFile
deriving DecidableEq, Repr

/-- The only storage failure the script can hit: `json.load` raising on
unparsable content. -/
inductive StorageError where
  | parseFailure : StorageError
deriving DecidableEq, Repr

/-- `R1 = 39000` (top resistor, ohms). -/
def R1 : ℚ := 39000

/-- `R2 = 1000` (bottom resistor, ohms). -/
def R2 : ℚ := 1000

/-- `DIVIDER_RATIO = (R1 + R2) / R2`. -/
def DIVIDER_RATIO : ℚ := (R1 + R2) / R2

/-- `CALIBRATION_FACTOR = 0.78`. -/
def CALIBRATION_FACTOR : ℚ := 78 / 100

/-- Python `round(x, 3)`: round to 3 decimal places. (CPython rounds ties
to even; every value this development evaluates it on is an exact multiple
of 1/1000, where all round-to-nearest modes agree.) -/
def round3 (q : ℚ) : ℚ := (round (q * 1000) : ℤ) / 1000

/-- `voltage_at_pin = (raw / 65535) * 3.3` in `read_voltage`. -/
def voltage_at_pin (raw : ℕ) : ℚ := ((raw : ℚ) / 65535) * (33 / 10)

/-- `real_voltage = voltage_at_pin * DIVIDER_RATIO * CALIBRATION_FACTOR`,
rounded to 3 decimals, as a function of the pin voltage. -/
def real_voltage (pin : ℚ) : ℚ := round3 (pin * DIVIDER_RATIO * CALIBRATION_FACTOR)

/-- `read_voltage()`: returns `(round(real_voltage,3), round(voltage_at_pin,3), raw)`. -/
def read_voltage (raw : ℕ) : ℚ × ℚ × ℕ :=
  (real_voltage (voltage_at_pin raw), round3 (voltage_at_pin raw), raw)

/-- The payload dict `send_data` builds from its two arguments: keys
`voltage`, `device_id = "esp32-001"`, `channel = 0`; the `timestamp`
parameter is not used. -/
def send_data_payload (voltage : ℚ) (timestamp : ℚ) : Payload :=
  { voltage := voltage, device_id := "esp32-001", channel := 0 }

/-- `send_data(voltage, timestamp)`: posts the payload and returns `True`
on success, `False` when the post raises. `post` is the network oracle for
this one HTTP round trip. -/
def send_data (post : Payload → Bool) (voltage : ℚ) (timestamp : ℚ) : Bool :=
  post (send_data_payload voltage timestamp)

/-- The load pattern shared by `save_to_buffer` and `flush_buffer`:
if `BUFFER_FILE` is absent the buffer is `[]`; otherwise `json.load` either
parses the array or raises. -/
def loadBuffer : BufferFile → Except StorageError (List Entry)
  | .absent => .ok []
  | .wellFormed l => .ok l
  | .corrupt => .error .parseFailure

/-- `save_to_buffer(entry)`: read the existing buffer (empty when the file
is absent), append `entry`, write the whole array back. -/
def save_to_buffer (entry : Entry) (f : BufferFile) : Except StorageError BufferFile :=
  match loadBuffer f with
  | .error e => .error e
  | .ok buffer => .ok (.wellFormed (buffer ++ [entry]))

/-- One deliver call of the replay loop: `send_data(entry["voltage"],
entry["timestamp"])`, where `post i` is the network outcome of the `i`-th
call of the pass. -/
def deliverEntry (post : ℕ → Payload → Bool) (i : ℕ) (e : Entry) : Bool :=
  send_data (post i) e.voltage e.timestamp

/-- The deliver calls the replay loop makes on a buffer, in order, starting
at call index `i`: each entry paired with its outcome. -/
def deliverTrace (post : ℕ → Payload → Bool) : ℕ → List Entry → List (Entry × Bool)
  | _, [] => []
  | i, e :: rest => (e, deliverEntry post i e) :: deliverTrace post (i + 1) rest

/-- `success_entries` accumulated by the replay loop: the entries whose
deliver call returned `True`, in call order. -/
def collectSuccess (post : ℕ → Payload → Bool) : ℕ → List Entry → List Entry
  | _, [] => []
  | i, e :: rest =>
    if deliverEntry post i e then e :: collectSuccess post (i + 1) rest
    else collectSuccess post (i + 1) rest

/-- `flush_buffer()`: return at once when the file is absent; otherwise
load the array (raising on corrupt content), attempt every entry once, and
rewrite the file with `[e for e in buffer if e not in success_entries]`. -/
def flush_buffer (post : ℕ → Payload → Bool) : BufferFile → Except StorageError BufferFile
  | .absent => .ok .absent
  | .corrupt => .error .parseFailure
  | .wellFormed buffer =>
    .ok (.wellFormed
      (buffer.filter (fun e => decide (e ∉ collectSuccess post 0 buffer))))

/-- One iteration of the main `while True` loop, for a reading `e` already
sampled and timestamped: when `connected` (`wlan and wlan.isconnected()`),
call `send_data` once, buffering the reading only on failure; otherwise
buffer it directly. Returns the new file state and the list of deliver
calls (entry, outcome) made this cycle. -/
def cycle (connected : Bool) (post : Payload → Bool) (e : Entry) (f : BufferFile) :
    Except StorageError (BufferFile × List (Entry × Bool)) :=
  if connected then
    if send_data post e.voltage e.timestamp then .ok (f, [(e, true)])
    else (save_to_buffer e f).map (fun f2 => (f2, [(e, false)]))
  else
    (save_to_buffer e f).map (fun f2 => (f2, []))

/-- A finite run of the main loop: for each cycle, a connectivity flag and
the reading sampled that cycle; `post i` is the network oracle of cycle
`i`'s live delivery attempt. Returns the final file state and the list of
readings whose deliver call returned success, in delivery order. -/
def runLoop (post : ℕ → Payload → Bool) :
    ℕ → List (Bool × Entry) → BufferFile → Except StorageError (BufferFile × List Entry)
  | _, [], f => .ok (f, [])
  | i, (conn, e) :: rest, f =>
    match cycle conn (post i) e f with
    | .error err => .error err
    | .ok (f2, tr) =>
      match runLoop post (i + 1) rest f2 with
      | .error err => .error err
      | .ok (fFin, delivered) => .ok (fFin, (tr.filter Prod.snd).map Prod.fst ++ delivered)

/-- Logical queue contents of an uncorrupted file: an absent file is the
empty queue. -/
def goodContents : BufferFile → Option (List Entry)
  | .absent => some []
  | .wellFormed l => some l
  | .corrupt => none

/-! ### Supporting lemmas -/

/-- The replay loop's `success_entries` are exactly the entries of the
successful calls in its deliver trace, in order. -/
lemma collectSuccess_eq_trace (post : ℕ → Payload → Bool) :
    ∀ (i : ℕ) (l : List Entry),
      collectSuccess post i l = ((deliverTrace post i l).filter Prod.snd).map Prod.fst := by
  intro i l
  induction l generalizing i with
  | nil => rfl
  | cons e rest ih =>
    simp only [collectSuccess, deliverTrace, List.filter_cons]
    cases h : deliverEntry post i e with
    | false => simpa using ih (i + 1)
    | true => simpa using ih (i + 1)

/-- The deliver trace of a replay pass visits every buffer entry exactly
once, in the original order. -/
lemma deliverTrace_map_fst (post : ℕ → Payload → Bool) :
    ∀ (i : ℕ) (l : List Entry), (deliverTrace post i l).map Prod.fst = l := by
  intro i l
  induction l generalizing i with
  | nil => rfl
  | cons e rest ih => simp [deliverTrace, ih (i + 1)]

/-- `save_to_buffer` on an uncorrupted file appends to its logical
contents. -/
lemma save_to_buffer_good (e : Entry) (f : BufferFile) (l : List Entry)
    (h : goodContents f = some l) :
    save_to_buffer e f = .ok (.wellFormed (l ++ [e])) := by
  cases f with
  | absent => simp [goodContents] at h; subst h; rfl
  | wellFormed l2 => simp [goodContents] at h; subst h; rfl
  | corrupt => simp [goodContents] at h

/-- When every network call succeeds, the replay loop's `success_entries`
are the whole buffer. -/
lemma collectSuccess_of_allOk (post : ℕ → Payload → Bool)
    (h : ∀ i p, post i p = true) :
    ∀ (i : ℕ) (l : List Entry), collectSuccess post i l = l := by
  intro i l
  induction l generalizing i with
  | nil => rfl
  | cons e rest ih =>
    simp [collectSuccess, deliverEntry, send_data, h, ih (i + 1)]

/-! ### Claim theorems -/

/-- C6. Append postcondition: `save_to_buffer` commits exactly the previous
persisted sequence with the new reading at the end; with no file ever
persisted the previous sequence is empty, so the result is the one-element
sequence. -/
theorem save_to_buffer_append (e : Entry) (l : List Entry) :
    save_to_buffer e (.wellFormed l) = .ok (.wellFormed (l ++ [e])) ∧
    save_to_buffer e .absent = .ok (.wellFormed [e]) :=
  ⟨rfl, rfl⟩

/-- C8. Calibration correctness: with `R1 = 39000`, `R2 = 1000` the divider
ratio is 40, the calibration factor is 0.78, and a sample whose pin voltage
is exactly 1.0 V reports a real voltage of 31.2 V (= 156/5) after rounding
to 3 decimals; `read_voltage` reports exactly this value as its first
component. -/
theorem calibration_correct :
    DIVIDER_RATIO = 40 ∧ CALIBRATION_FACTOR = 78 / 100 ∧
    real_voltage 1 = 156 / 5 ∧
    ∀ raw : ℕ, (read_voltage raw).1 = real_voltage (voltage_at_pin raw) := by
  refine ⟨by norm_num [ DIVIDER_RATIO, R1, R2], rfl, ?_, fun _ => rfl⟩
  norm_num [real_voltage, round3, DIVIDER_RATIO, CALIBRATION_FACTOR, R1, R2, round_eq]

/-- C10. Timestamp noninterference: `send_data` builds the identical
payload (fields `voltage`, `device_id = "esp32-001"`, `channel = 0`) for
any two timestamps, and its success result does not depend on the
timestamp; the capture timestamp is never part of the payload. -/
theorem send_data_timestamp_noninterference (post : Payload → Bool) (v t1 t2 : ℚ) :
    send_data_payload v t1 = send_data_payload v t2 ∧
    send_data post v t1 = send_data post v t2 ∧
    send_data_payload v t1 = { voltage := v, device_id := "esp32-001", channel := 0 } :=
  ⟨rfl, rfl, rfl⟩

/-- C2. Queue replay pass: the deliver trace attempts every loaded entry
exactly once in original order (so a failure never aborts the pass), the
rewritten file is the original sequence with every entry structurally equal
to a confirmed (successfully delivered) entry removed, survivors keep their
relative order, and on a 5-entry queue failing exactly on entries 2 and 4
the remainder is exactly entries 2 and 4. -/
theorem flush_replay_pass (post : ℕ → Payload → Bool) (buffer : List Entry) :
    (deliverTrace post 0 buffer).map Prod.fst = buffer ∧
    flush_buffer post (.wellFormed buffer) =
      .ok (.wellFormed (buffer.filter (fun e =>
        decide (e ∉ ((deliverTrace post 0 buffer).filter Prod.snd).map Prod.fst)))) ∧
    (buffer.filter (fun e => decide (e ∉ collectSuccess post 0 buffer))).Sublist buffer ∧
    flush_buffer (fun i _ => !(i == 1 || i == 3))
        (.wellFormed [⟨1, 10⟩, ⟨2, 20⟩, ⟨3, 30⟩, ⟨4, 40⟩, ⟨5, 50⟩]) =
      .ok (.wellFormed [⟨2, 20⟩, ⟨4, 40⟩]) := by
  refine ⟨deliverTrace_map_fst post 0 buffer, ?_, List.filter_sublist buffer, by rfl⟩
  simp only [flush_buffer, collectSuccess_eq_trace]

/-- C5. Idempotent replay: if every deliver call succeeds, one replay pass
leaves the persisted queue empty, and a second pass on the now-empty queue
returns it empty and unchanged, whatever the network does then. -/
theorem flush_idempotent (post post2 : ℕ → Payload → Bool) (buffer : List Entry)
    (h : ∀ i p, post i p = true) :
    flush_buffer post (.wellFormed buffer) = .ok (.wellFormed []) ∧
    flush_buffer post2 (.wellFormed []) = .ok (.wellFormed []) := by
  refine ⟨?_, rfl⟩
  simp only [flush_buffer, collectSuccess_of_allOk post h]
  have hnil : buffer.filter (fun e => decide (e ∉ buffer)) = [] := by
    rw [List.filter_eq_nil_iff]
    intro a ha
    simp [ha]
  rw [hnil]

/-- Witness for C5: a one-entry queue with an always-succeeding network. -/
theorem flush_idempotent_witness :
    flush_buffer (fun _ _ => true) (.wellFormed [⟨1, 1⟩]) = .ok (.wellFormed []) ∧
    flush_buffer (fun _ _ => true) (.wellFormed []) = .ok (.wellFormed []) :=
  flush_idempotent (fun _ _ => true) (fun _ _ => true) [⟨1, 1⟩] (fun _ _ => rfl)

/-- C7. Storage-error semantics of load: an absent queue file loads as the
empty sequence (not an error), a well-formed file loads as its persisted
sequence, a load fails only on corrupt content, and on corrupt content the
replay pass halts with the error instead of treating the queue as empty. -/
theorem load_semantics (post : ℕ → Payload → Bool) (l : List Entry) (f : BufferFile)
    (err : StorageError) (hc : loadBuffer f = .error err) :
    loadBuffer .absent = .ok [] ∧
    loadBuffer (.wellFormed l) = .ok l ∧
    f = .corrupt ∧
    flush_buffer post .corrupt = .error .parseFailure := by
  refine ⟨rfl, rfl, ?_, rfl⟩
  cases f with
  | absent => simp [loadBuffer] at hc
  | wellFormed l2 => simp [loadBuffer] at hc
  | corrupt => rfl

/-- Witness for C7: instantiated at a corrupt file. -/
theorem load_semantics_witness :
    loadBuffer .absent = .ok ([] : List Entry) ∧ BufferFile.corrupt = .corrupt :=
  ⟨(load_semantics (fun _ _ => true) [] .corrupt .parseFailure rfl).1,
   (load_semantics (fun _ _ => true) [] .corrupt .parseFailure rfl).2.2.1⟩

/-- C9. Duplicate-collapsing removal: if an entry structurally equal to `e`
was delivered successfully during a replay pass, then no copy of `e`
survives into the rewritten queue — including copies whose own deliver
call failed. -/
theorem flush_removes_all_copies (post : ℕ → Payload → Bool) (buffer rem : List Entry)
    (e : Entry) (hflush : flush_buffer post (.wellFormed buffer) = .ok (.wellFormed rem))
    (hsucc : e ∈ collectSuccess post 0 buffer) :
    e ∉ rem := by
  simp only [flush_buffer, Except.ok.injEq, BufferFile.wellFormed.injEq] at hflush
  subst hflush
  intro hmem
  rcases List.mem_filter.mp hmem with ⟨_, hdec⟩
  simp only [decide_eq_true_eq] at hdec
  exact hdec hsucc

/-- Witness for C9: buffer `[e, e]`, first call succeeds, second fails;
both copies are gone. -/
theorem flush_removes_all_copies_witness :
    Entry.mk 1 1 ∈ collectSuccess (fun i _ => i == 0) 0 [⟨1, 1⟩, ⟨1, 1⟩] ∧
    Entry.mk 1 1 ∉ ([] : List Entry) :=
  ⟨by decide,
   flush_removes_all_copies (fun i _ => i == 0) [⟨1, 1⟩, ⟨1, 1⟩] [] ⟨1, 1⟩
     (by rfl) (by decide)⟩

/-- C4 counterexample: load the queue `[e, e]` (the model never
deduplicates, so duplicates persist) and let every delivery fail; the
rewritten queue is `[e, e]` again, in which the reading `e` appears twice —
refuting "a Reading never appears twice in the remaining queue". -/
theorem flush_duplicate_counterexample :
    flush_buffer (fun _ _ => false) (.wellFormed [⟨1, 1⟩, ⟨1, 1⟩]) =
      .ok (.wellFormed [⟨1, 1⟩, ⟨1, 1⟩]) ∧
    List.count (⟨1, 1⟩ : Entry) [⟨1, 1⟩, ⟨1, 1⟩] = 2 :=
  ⟨by rfl, by decide⟩

/-- C4 amended: every reading removed by a reconciliation pass had a
successful deliver call for a structurally equal entry in that pass, and
the pass never introduces duplication — each reading occurs in the
rewritten queue at most as often as in the loaded queue, so a
duplicate-free loaded queue yields a duplicate-free remainder. -/
theorem flush_no_spurious_duplication (post : ℕ → Payload → Bool)
    (buffer rem : List Entry) (e : Entry)
    (hflush : flush_buffer post (.wellFormed buffer) = .ok (.wellFormed rem)) :
    (e ∈ buffer → e ∉ rem → e ∈ collectSuccess post 0 buffer) ∧
    List.count e rem ≤ List.count e buffer ∧
    (buffer.Nodup → rem.Nodup) := by
  simp only [flush_buffer, Except.ok.injEq, BufferFile.wellFormed.injEq] at hflush
  subst hflush
  refine ⟨?_, (List.filter_sublist buffer).count_le e, fun hnd => hnd.filter _⟩
  intro hbuf hnot
  by_contra hns
  exact hnot (List.mem_filter.mpr ⟨hbuf, by simpa using hns⟩)

/-- Witness for C4 amended: a singleton queue whose delivery succeeds. -/
theorem flush_no_spurious_duplication_witness :
    Entry.mk 1 1 ∈ collectSuccess (fun _ _ => true) 0 [⟨1, 1⟩] ∧
    List.count (⟨1, 1⟩ : Entry) [] ≤ List.count (⟨1, 1⟩ : Entry) [⟨1, 1⟩] ∧
    ([] : List Entry).Nodup :=
  ⟨(flush_no_spurious_duplication (fun _ _ => true) [⟨1, 1⟩] [] ⟨1, 1⟩ (by rfl)).1
     (by decide) (by decide),
   (flush_no_spurious_duplication (fun _ _ => true) [⟨1, 1⟩] [] ⟨1, 1⟩ (by rfl)).2.1,
   (flush_no_spurious_duplication (fun _ _ => true) [⟨1, 1⟩] [] ⟨1, 1⟩ (by rfl)).2.2
     (by decide)⟩

/-- C3. Live-or-buffer decision: a cycle makes at most one deliver call;
when connected it calls `send_data` exactly once with the new reading —
on success the file is untouched, on failure the reading is appended —
and when disconnected it makes no call and appends directly. -/
theorem live_or_buffer (post : Payload → Bool) (e : Entry) (l : List Entry) :
    (∀ conn : Bool, ∃ f2 tr,
      cycle conn post e (.wellFormed l) = .ok (f2, tr) ∧ tr.length ≤ 1) ∧
    (send_data post e.voltage e.timestamp = true →
      cycle true post e (.wellFormed l) = .ok (.wellFormed l, [(e, true)])) ∧
    (send_data post e.voltage e.timestamp = false →
      cycle true post e (.wellFormed l) = .ok (.wellFormed (l ++ [e]), [(e, false)])) ∧
    cycle false post e (.wellFormed l) = .ok (.wellFormed (l ++ [e]), []) := by
  refine ⟨?_, fun hs => ?_, fun hs => ?_, ?_⟩
  · intro conn
    cases conn with
    | false =>
      exact ⟨.wellFormed (l ++ [e]), [], by simp [cycle, save_to_buffer, loadBuffer, Except.map]⟩
    | true =>
      cases hs : send_data post e.voltage e.timestamp with
      | true => exact ⟨.wellFormed l, [(e, true)], by simp [cycle, hs]⟩
      | false =>
        exact ⟨.wellFormed (l ++ [e]), [(e, false)],
          by simp [cycle, hs, save_to_buffer, loadBuffer, Except.map]⟩
  · simp [cycle, hs]
  · simp [cycle, hs, save_to_buffer, loadBuffer, Except.map]
  · simp [cycle, save_to_buffer, loadBuffer, Except.map]

/-- Witness for C3: a connected cycle with a succeeding and with a failing
network, from an empty persisted queue. -/
theorem live_or_buffer_witness :
    cycle true (fun _ => true) ⟨1, 1⟩ (.wellFormed []) =
      .ok (.wellFormed [], [(⟨1, 1⟩, true)]) ∧
    cycle true (fun _ => false) ⟨1, 1⟩ (.wellFormed []) =
      .ok (.wellFormed [⟨1, 1⟩], [(⟨1, 1⟩, false)]) :=
  ⟨(live_or_buffer (fun _ => true) ⟨1, 1⟩ []).2.1 rfl,
   (live_or_buffer (fun _ => false) ⟨1, 1⟩ []).2.2.1 rfl⟩

/-- Running the main loop from any uncorrupted file never errors, ends in
an uncorrupted file, and the successfully delivered readings together with
the final queue are a permutation of the initial queue plus all sampled
readings. -/
lemma runLoop_good (post : ℕ → Payload → Bool) (cycles : List (Bool × Entry)) :
    ∀ (i : ℕ) (f : BufferFile) (l : List Entry), goodContents f = some l →
      ∃ (fFin : BufferFile) (q d : List Entry),
        runLoop post i cycles f = .ok (fFin, d) ∧ goodContents fFin = some q ∧
        (d ++ q).Perm (l ++ cycles.map Prod.snd) := by
  induction cycles with
  | nil =>
    intro i f l h
    exact ⟨f, l, [], rfl, h, by simp⟩
  | cons c rest ih =>
    obtain ⟨conn, e⟩ := c
    intro i f l h
    have hsave := save_to_buffer_good e f l h
    cases conn with
    | false =>
      obtain ⟨fFin, q, d, h1, h2, h3⟩ := ih (i + 1) (.wellFormed (l ++ [e])) (l ++ [e]) rfl
      refine ⟨fFin, q, d, ?_, h2, ?_⟩
      · simp [runLoop, cycle, hsave, Except.map, h1]
      · simpa [List.append_assoc] using h3
    | true =>
      cases hs : send_data (post i) e.voltage e.timestamp with
      | true =>
        obtain ⟨fFin, q, d, h1, h2, h3⟩ := ih (i + 1) f l h
        refine ⟨fFin, q, e :: d, ?_, h2, ?_⟩
        · simp [runLoop, cycle, hs, h1]
        · exact ((h3.cons e).trans List.perm_middle.symm).trans
            (by simp [List.perm_middle])
      | false =>
        obtain ⟨fFin, q, d, h1, h2, h3⟩ := ih (i + 1) (.wellFormed (l ++ [e])) (l ++ [e]) rfl
        refine ⟨fFin, q, d, ?_, h2, ?_⟩
        · simp [runLoop, cycle, hs, hsave, Except.map, h1]
        · simpa [List.append_assoc] using h3

/-- C1. No-loss invariant: on a fresh device (no buffer file), the startup
flush is a no-op, and after any finite run of the main loop under any
interleaving of connectivity states and delivery outcomes, the multiset of
successfully delivered readings plus the final persisted queue equals the
multiset of all sampled readings — no reading is lost and none invented. -/
theorem no_loss (postF postL : ℕ → Payload → Bool) (cycles : List (Bool × Entry)) :
    flush_buffer postF .absent = .ok .absent ∧
    ∃ (fFin : BufferFile) (q d : List Entry),
      runLoop postL 0 cycles .absent = .ok (fFin, d) ∧ goodContents fFin = some q ∧
      (↑d + ↑q : Multiset Entry) = ↑(cycles.map Prod.snd) := by
  refine ⟨rfl, ?_⟩
  obtain ⟨fFin, q, d, h1, h2, h3⟩ := runLoop_good postL cycles 0 .absent [] rfl
  refine ⟨fFin, q, d, h1, h2, ?_⟩
  have := Multiset.coe_eq_coe.mpr h3
  simpa [Multiset.coe_add] using this
